import Mathlib

/-!
Verification of the payment-URI construction, amount codec, ABI call-data
encoding, QR fallback policy, wallet-state synchronization and
invoice/contract gateway logic of the pyusd-invoice-mvp repository.

JavaScript numeric values become `ℚ` (amounts) or `ℕ`/`ℤ` (integer base
units).  Where the source's double-precision rounding is observable —
the amount codec's multiplication and `parseInt` on large integers — the
binary64 rounding itself is modelled (`fp64` below); elsewhere the exact
rational value is used.  Strings become `String` or `List Char`.
External library functions that are not part of the repository (the
`ethers.utils.isAddress` checksum validator) are taken as parameters of
the embedded functions.
-/

/-! ### Network registry (src/services/blockchain/networks.ts) -/

structure Network where
  chainId : ℕ
  name : String
  currency : String
  rpcUrl : String
  blockExplorer : String
  pyusdAddress : Option String
  isTestnet : Bool
  supported : Bool
deriving Repr, DecidableEq

/-- `NETWORKS.sepolia` from networks.ts / web3Service.ts. -/
def sepoliaNetwork : Network :=
  { chainId := 11155111
  , name := "Sepolia Testnet"
  , currency := "ETH"
  , rpcUrl := "https://sepolia.infura.io/v3/"
  , blockExplorer := "https://sepolia.etherscan.io"
  , pyusdAddress := some "0xCaC524BcA292aaade2DF8A05cC58F0a65B1B3bB9"
  , isTestnet := true
  , supported := true }

/-! ### IEEE-754 binary64 rounding model

JavaScript numbers are binary64 doubles, so each arithmetic operation
rounds its exact result to 53 significant bits (round to nearest, ties
to even).  `fp64 q` is the double value nearest to the rational `q`.
Exponent overflow (magnitudes ≥ 2^1024) and subnormal underflow
(magnitudes below 2^-1022) are outside the range of every amount in
this development and are not modelled. -/

/-- Round a rational to the nearest integer, ties to even — the IEEE-754
rounding of a scaled significand. -/
def roundNearestEven (q : ℚ) : ℤ :=
  if q - Int.floor q < 1 / 2 then Int.floor q
  else if 1 / 2 < q - Int.floor q then Int.floor q + 1
  else if Int.floor q % 2 = 0 then Int.floor q else Int.floor q + 1

/-- The greatest `e : ℤ` with `2 ^ e ≤ q`, for positive `q`, computed
from the bit lengths of the numerator and denominator with one
correction step. -/
def ilog2q (q : ℚ) : ℤ :=
  if (2 : ℚ) ^ ((Nat.log2 q.num.natAbs : ℤ) - (Nat.log2 q.den : ℤ)) ≤ q
  then (Nat.log2 q.num.natAbs : ℤ) - (Nat.log2 q.den : ℤ)
  else (Nat.log2 q.num.natAbs : ℤ) - (Nat.log2 q.den : ℤ) - 1

/-- Binary64 rounding of a positive rational: scale into `[2^52, 2^53)`,
round to an integer significand (nearest, ties to even), scale back. -/
def fp64pos (q : ℚ) : ℚ :=
  (roundNearestEven (q / 2 ^ (ilog2q q - 52)) : ℚ) * 2 ^ (ilog2q q - 52)

/-- The binary64 double nearest to `q` (normal range). -/
def fp64 (q : ℚ) : ℚ :=
  if q = 0 then 0 else if q < 0 then -fp64pos (-q) else fp64pos q

/-! ### Amount codec (networks.ts `formatTokenAmount`)

`formatTokenAmount(amount, decimals)` computes
`Math.floor(amount * Math.pow(10, decimals)).toString()` on doubles:
the amount argument arrives as the double nearest to the intended
decimal value, `Math.pow(10, decimals)` is the double nearest to
`10 ^ decimals` (exact for every decimals used here), and the
multiplication rounds its exact product to binary64 before `Math.floor`
truncates. -/

def formatTokenAmount (amount : ℚ) (decimals : ℕ) : ℤ :=
  Int.floor (fp64 (fp64 amount * fp64 ((10 : ℚ) ^ decimals)))

/-! ### A model of JavaScript `parseFloat` on plain decimal strings.

`parseFloat` takes the longest numeric prefix of the string (optional
sign, integer digits, optional fractional part) and returns NaN (here
`none`) when no digit is found.  Exponent forms are not modelled; no
call site in the repository feeds exponent-form strings to it. -/

def digitsToNat (l : List Char) : ℕ :=
  l.foldl (fun a c => 10 * a + (c.toNat - 48)) 0

def parseFloatQ (s : String) : Option ℚ :=
  let l := s.data
  let signed : Bool × List Char :=
    match l with
    | '-' :: r => (true, r)
    | '+' :: r => (false, r)
    | _ => (false, l)
  let intPart := signed.2.takeWhile Char.isDigit
  let rest := signed.2.dropWhile Char.isDigit
  let fracPart : List Char :=
    match rest with
    | '.' :: r => r.takeWhile Char.isDigit
    | _ => []
  if intPart = [] ∧ fracPart = [] then none
  else
    let v : ℚ := (digitsToNat intPart : ℚ) + (digitsToNat fracPart : ℚ) / (10 : ℚ) ^ fracPart.length
    some (if signed.1 then -v else v)

/-! ### Token-transfer deep-link builder
(qrCodeService.ts `QRCodeService.generatePYUSDPaymentQR`, lines 132–198)

The function validates the token address, the recipient contract address
(via `ethers.utils.isAddress`, passed here as the parameter `isAddr`) and
the amount, converts the amount to base units with
`Math.floor(parseFloat(amount) * 1e6)`, and builds the EIP-681 URI.  The
QR-image rendering of the URI is outside the model; the result is the
`uri` field on success and the `error` message on failure. -/

def generatePYUSDPaymentQR (isAddr : String → Bool) (_invoiceId : ℕ)
    (amount : String) (contractAddress : String) : Except String String :=
  match sepoliaNetwork.pyusdAddress with
  | none => Except.error "PYUSD token address not configured for Sepolia network"
  | some pyusdAddress =>
    if contractAddress = "" ∨ ¬ isAddr contractAddress then
      Except.error "Invalid contract address provided"
    else
      match parseFloatQ amount with
      | none => Except.error "Invalid amount provided"
      | some amountFloat =>
        if amountFloat ≤ 0 then Except.error "Invalid amount provided"
        else
          let amountInWei : ℤ := Int.floor (amountFloat * 1000000)
          Except.ok ("ethereum:" ++ pyusdAddress ++ "@" ++ toString sepoliaNetwork.chainId
            ++ "/transfer?address=" ++ contractAddress
            ++ "&uint256=" ++ toString amountInWei ++ "&gas=100000")

/-! ### MetaMask deep-link builder
(qrCodeService.ts `QRCodeService.createMetaMaskDeepLink`, lines 109–126)

Builds the URI directly from its inputs with no validation of the
recipient address or the amount.  Nothing in the `try` block can throw,
so the `catch` fallback URI is unreachable and the successful branch is
the embedded behaviour. -/

def createMetaMaskDeepLink (_invoiceId : ℕ) (amount : String)
    (contractAddress : String) : String :=
  match sepoliaNetwork.pyusdAddress with
  | none => ""
  | some pyusdAddress =>
    "ethereum:" ++ pyusdAddress ++ "@" ++ toString sepoliaNetwork.chainId
      ++ "/transfer?address=" ++ contractAddress ++ "&uint256=" ++ amount

/-! ### ERC-20 `transfer(address,uint256)` ABI call-data encoding
(qrCodeService.ts `QRCodeService.encodeTransferFunction`, lines 274–285)

`encodeTransferFunction(to, amount)` returns
`0x` ++ `a9059cbb` ++ (`to` without its `0x` marker, left-padded with `0`
to 64 hex characters) ++ (`parseInt(amount).toString(16)` left-padded
with `0` to 64 hex characters).  Hex strings are embedded as `List Char`;
the integer amount as `ℕ`. -/

/-- Lower-case hex digit character for a value below 16,
as produced by JavaScript `Number.prototype.toString(16)`. -/
def hexDigitChar (n : ℕ) : Char :=
  if n < 10 then Char.ofNat (48 + n) else Char.ofNat (87 + n)

/-- Hex digits of `n`, most significant first; empty for `0`. -/
def natToHex (n : ℕ) : List Char :=
  if h : n = 0 then []
  else natToHex (n / 16) ++ [hexDigitChar (n % 16)]
decreasing_by exact Nat.div_lt_self (Nat.pos_of_ne_zero h) (by norm_num)

/-- `n.toString(16)` in JavaScript: `"0"` for zero, no leading zeros otherwise. -/
def natToHexJS (n : ℕ) : List Char :=
  if n = 0 then ['0'] else natToHex n

/-- Numeric value of one hex digit character (either case); 0 for other characters. -/
def hexVal (c : Char) : ℕ :=
  if '0' ≤ c ∧ c ≤ '9' then c.toNat - 48
  else if 'a' ≤ c ∧ c ≤ 'f' then c.toNat - 87
  else if 'A' ≤ c ∧ c ≤ 'F' then c.toNat - 55
  else 0

/-- Big-endian hex-string parsing, as `parseInt(s, 16)` on valid digits. -/
def parseHex (l : List Char) : ℕ :=
  l.foldl (fun a c => 16 * a + hexVal c) 0

/-- `String.prototype.padStart(k, c)`: pad on the left up to length `k`. -/
def padLeft (k : ℕ) (c : Char) (l : List Char) : List Char :=
  List.replicate (k - l.length) c ++ l

/-- The `transfer(address,uint256)` selector `a9059cbb`. -/
def transferSelector : List Char := ['a', '9', '0', '5', '9', 'c', 'b', 'b']

/-- `to.replace('0x', '')`: remove the first occurrence of `0x`. -/
def replaceFirst0x : List Char → List Char
  | [] => []
  | '0' :: 'x' :: rest => rest
  | c :: rest => c :: replaceFirst0x rest

/-- `parseInt` on the decimal digits of an integer amount: the string is
parsed to the binary64 double nearest to the integer, losing precision
above `2 ^ 53`; `toString(16)` then prints that (integer-valued) double
exactly.  The value of the parsed double as a natural number. -/
def parseIntFP (n : ℕ) : ℕ :=
  (fp64 (n : ℚ)).num.toNat

/-- `QRCodeService.encodeTransferFunction` on a hex-string address and an
integer amount (given to the code as its decimal-digit string). -/
def encodeTransferFunction (toAddr : List Char) (amount : ℕ) : List Char :=
  ['0', 'x'] ++ transferSelector ++ padLeft 64 '0' (replaceFirst0x toAddr)
    ++ padLeft 64 '0' (natToHexJS (parseIntFP amount))

/-- Decoding of the ABI call data as the specification describes it: the
4-byte selector, then a 32-byte left-padded address word, then a 32-byte
big-endian amount word. -/
def decodeTransferFunction (data : List Char) : Option (List Char × ℕ) :=
  match data with
  | '0' :: 'x' :: rest =>
    if rest.take 8 = transferSelector ∧ rest.length = 136 then
      some ('0' :: 'x' :: ((rest.drop 8).take 64).drop 24, parseHex (rest.drop 72))
    else none
  | _ => none

/-! ### Multi-format QR fallback
(BlockchainInvoicesList.tsx `handleGenerateQR`, lines 157–280)

Each builder call is abstracted by its outcome, `Except.ok payload` for a
successful generation and `Except.error message` for a failure.  The
handler keeps a running `qrResult`: it starts with the MetaMask-mobile
builder's result, overwrites it with the EIP-681 builder's result only
when the latter succeeds, then with the structured-JSON builder's result
only when that succeeds, and finally surfaces the payload on success or
throws the retained error. -/

def handleGenerateQR (mobileResult eipResult structuredResult : Except String String) :
    Except String String :=
  let qr1 := mobileResult
  let qr2 :=
    match qr1 with
    | Except.ok p => Except.ok p
    | Except.error _ =>
      match eipResult with
      | Except.ok p => Except.ok p
      | Except.error _ => qr1
  let qr3 :=
    match qr2 with
    | Except.ok p => Except.ok p
    | Except.error _ =>
      match structuredResult with
      | Except.ok p => Except.ok p
      | Except.error _ => qr2
  qr3

/-- Modelled from the spec: the fallback policy as the specification
states it — attempt the token-transfer deep-link builder (1), then the
wallet-specific mobile deep-link builder (2), then the generic URI
fallback (4), skipping the structured JSON form (3); first success wins
and if all fail the last error is surfaced. -/
def statedFallbackPolicy (tokenTransfer mobile generic : Except String String) :
    Except String String :=
  match tokenTransfer with
  | Except.ok p => Except.ok p
  | Except.error _ =>
    match mobile with
    | Except.ok p => Except.ok p
    | Except.error _ =>
      match generic with
      | Except.ok p => Except.ok p
      | Except.error e => Except.error e

/-- The fallback policy the UI code actually implements: attempt the
wallet-specific mobile deep-link builder (2), then the token-transfer
deep-link builder (1), then the structured JSON form (3); the generic
URI fallback (4) is never attempted; first success wins and if all
attempted builders fail the first builder's error is surfaced. -/
def amendedFallbackPolicy (mobile tokenTransfer structuredJSON : Except String String) :
    Except String String :=
  match mobile with
  | Except.ok p => Except.ok p
  | Except.error e =>
    match tokenTransfer with
    | Except.ok p => Except.ok p
    | Except.error _ =>
      match structuredJSON with
      | Except.ok p => Except.ok p
      | Except.error _ => Except.error e

/-! ### Wallet state synchronizer
(BlockchainContext.tsx `WalletProvider`: `disconnectWallet` lines
414–429 and the `accountsChanged` handler in `setupEventListeners`,
lines 504–520) -/

structure WalletState where
  isConnected : Bool
  address : Option String
  balance : String
  chainId : Option ℕ
  network : Option Network
  isLoading : Bool
  error : Option String
deriving Repr, DecidableEq

/-- The state written by `disconnectWallet`. -/
def disconnectedWalletState : WalletState :=
  { isConnected := false
  , address := none
  , balance := "0"
  , chainId := none
  , network := none
  , isLoading := false
  , error := none }

/-- The `accountsChanged` handler: an empty account list calls
`disconnectWallet`; a changed first account replaces the address and
resets the displayed balance to `'0'` pending a refetch; otherwise the
state is unchanged. -/
def handleAccountsChanged (s : WalletState) (accounts : List String) : WalletState :=
  match accounts with
  | [] => disconnectedWalletState
  | a :: _ =>
    if some a ≠ s.address then { s with address := some a, balance := "0" } else s

/-! ### Invoice/contract gateway
(qrcode.ts `BlockchainService.payInvoice` lines 448–507 and
`BlockchainService.createInvoice` lines 398–446)

The chain reads feeding the checks (`getInvoice`, `balanceOf`,
`allowance`) and the outcomes of the state-changing transactions are
inputs of the model; the state-changing calls the gateway issues are
recorded as an ordered event trace. -/

inductive InvoiceStatus where
  | UNPAID
  | PAID
  | FAILED
deriving Repr, DecidableEq

structure Invoice where
  id : ℕ
  creator : String
  payer : String
  amount : ℕ
  status : InvoiceStatus
  ipfsHash : String
  createdAt : ℕ
  paidAt : ℕ
  invoiceExists : Bool
deriving Repr, DecidableEq

/-- `toLowerCase()`. -/
def lowerStr (s : String) : String := String.mk (s.data.map Char.toLower)

inductive PayEvent where
  | approveSubmit (amount : ℕ)
  | approveConfirmed
  | paySubmit (invoiceId : ℕ)
  | payConfirmed
deriving Repr, DecidableEq

structure PayEnv where
  initialized : Bool
  invoice : Option Invoice
  userAddress : String
  balance : ℕ
  allowance : ℕ
  approveResult : Except String Unit
  payResult : Except String String

/-- `BlockchainService.payInvoice`: the returned result together with the
ordered trace of state-changing contract calls issued. -/
def payInvoiceRun (env : PayEnv) (invoiceId : ℕ) : Except String String × List PayEvent :=
  if env.initialized = false then (Except.error "Blockchain service not initialized", [])
  else
    match env.invoice with
    | none => (Except.error "Invoice not found", [])
    | some inv =>
      if inv.status ≠ InvoiceStatus.UNPAID then
        (Except.error "Invoice is not in unpaid status", [])
      else if lowerStr inv.creator = lowerStr env.userAddress then
        (Except.error "Cannot pay your own invoice", [])
      else if env.balance < inv.amount then
        (Except.error "Insufficient PYUSD balance", [])
      else if env.allowance < inv.amount then
        match env.approveResult with
        | Except.error e => (Except.error e, [PayEvent.approveSubmit inv.amount])
        | Except.ok _ =>
          match env.payResult with
          | Except.error e =>
            (Except.error e,
              [PayEvent.approveSubmit inv.amount, PayEvent.approveConfirmed,
                PayEvent.paySubmit invoiceId])
          | Except.ok h =>
            (Except.ok h,
              [PayEvent.approveSubmit inv.amount, PayEvent.approveConfirmed,
                PayEvent.paySubmit invoiceId, PayEvent.payConfirmed])
      else
        match env.payResult with
        | Except.error e => (Except.error e, [PayEvent.paySubmit invoiceId])
        | Except.ok h => (Except.ok h, [PayEvent.paySubmit invoiceId, PayEvent.payConfirmed])

inductive CreateEvent where
  | uploadIPFS
  | contractCreateInvoice (amountBaseUnits : ℤ) (ipfsHash : String)
deriving Repr, DecidableEq

structure CreateEnv where
  initialized : Bool
  ipfsResult : Except String String
  txResult : Except String (ℕ × String)

/-- `BlockchainService.createInvoice`: uploads the draft to IPFS, then —
only when the upload succeeded — calls `createInvoice` on the contract
with the `formatTokenAmount` base-unit amount and the returned hash. -/
def createInvoiceRun (env : CreateEnv) (amount : ℚ) :
    Except String (ℕ × String) × List CreateEvent :=
  if env.initialized = false then (Except.error "Blockchain service not initialized", [])
  else
    match env.ipfsResult with
    | Except.error e => (Except.error e, [CreateEvent.uploadIPFS])
    | Except.ok ipfsHash =>
      let formattedAmount := formatTokenAmount amount 6
      match env.txResult with
      | Except.error e =>
        (Except.error e,
          [CreateEvent.uploadIPFS, CreateEvent.contractCreateInvoice formattedAmount ipfsHash])
      | Except.ok r =>
        (Except.ok r,
          [CreateEvent.uploadIPFS, CreateEvent.contractCreateInvoice formattedAmount ipfsHash])

/-! ### Helper lemmas: hex round-trip -/

theorem parseHex_append_singleton (xs : List Char) (c : Char) :
    parseHex (xs ++ [c]) = 16 * parseHex xs + hexVal c := by
  simp [parseHex, List.foldl_append]

theorem hexVal_hexDigitChar (m : ℕ) (h : m < 16) : hexVal (hexDigitChar m) = m := by
  interval_cases m <;> decide

theorem parseHex_natToHex (n : ℕ) : parseHex (natToHex n) = n := by
  induction n using Nat.strong_induction_on with
  | _ n ih =>
    by_cases h : n = 0
    · subst h
      simp [natToHex, parseHex]
    · rw [natToHex, dif_neg h, parseHex_append_singleton,
        ih (n / 16) (Nat.div_lt_self (Nat.pos_of_ne_zero h) (by norm_num)),
        hexVal_hexDigitChar _ (Nat.mod_lt _ (by norm_num))]
      omega

theorem natToHex_length_le (n : ℕ) : ∀ k : ℕ, n < 16 ^ k → (natToHex n).length ≤ k := by
  induction n using Nat.strong_induction_on with
  | _ n ih =>
    intro k hk
    by_cases hn : n = 0
    · subst hn
      simp [natToHex]
    · rw [natToHex, dif_neg hn]
      cases k with
      | zero =>
        exfalso
        have : n < 1 := by simpa using hk
        omega
      | succ k' =>
        have h' : n / 16 < 16 ^ k' :=
          (Nat.div_lt_iff_lt_mul (by norm_num)).mpr (by rw [← pow_succ]; exact hk)
        have hrec := ih (n / 16) (Nat.div_lt_self (Nat.pos_of_ne_zero hn) (by norm_num)) k' h'
        simp only [List.length_append, List.length_cons, List.length_nil]
        omega

theorem parseHex_cons_zero (l : List Char) : parseHex ('0' :: l) = parseHex l := by
  have h0 : 16 * 0 + hexVal '0' = 0 := by decide
  show List.foldl _ (16 * 0 + hexVal '0') l = List.foldl _ 0 l
  rw [h0]

theorem parseHex_replicate_zero (k : ℕ) (xs : List Char) :
    parseHex (List.replicate k '0' ++ xs) = parseHex xs := by
  induction k with
  | zero => simp
  | succ k ih =>
    rw [List.replicate_succ, List.cons_append, parseHex_cons_zero, ih]

theorem parseHex_natToHexJS (n : ℕ) : parseHex (natToHexJS n) = n := by
  by_cases h : n = 0
  · subst h
    decide
  · rw [natToHexJS, if_neg h]
    exact parseHex_natToHex n

/-! ### Helper lemmas: binary64 rounding -/

theorem ilog2q_spec (q : ℚ) (hq : 0 < q) :
    (2 : ℚ) ^ ilog2q q ≤ q ∧ q < (2 : ℚ) ^ (ilog2q q + 1) := by
  have hnum_pos : 0 < q.num := Rat.num_pos.mpr hq
  set n : ℕ := q.num.natAbs with hn
  set d : ℕ := q.den with hd
  have hn0 : n ≠ 0 := by
    rw [hn]
    exact Int.natAbs_ne_zero.mpr (ne_of_gt hnum_pos)
  have hd0 : d ≠ 0 := q.den_nz
  have hncast : ((n : ℚ)) = ((q.num : ℚ)) := by
    rw [hn, Int.cast_natAbs]
    exact_mod_cast abs_of_nonneg hnum_pos.le
  have hq_eq : q = (n : ℚ) / (d : ℚ) := by
    rw [hncast, hd, Rat.num_div_den q]
  have hdpos : (0 : ℚ) < (d : ℚ) := by
    have := Nat.pos_of_ne_zero hd0
    exact_mod_cast this
  set ln : ℕ := Nat.log2 n with hln
  set ld : ℕ := Nat.log2 d with hld
  have hnum1 : (2 : ℚ) ^ (ln : ℤ) ≤ (n : ℚ) := by
    have := Nat.log2_self_le hn0
    rw [zpow_natCast]
    exact_mod_cast this
  have hnum2 : (n : ℚ) < (2 : ℚ) ^ ((ln : ℤ) + 1) := by
    have := Nat.lt_log2_self (n := n)
    rw [show ((ln : ℤ) + 1) = ((ln + 1 : ℕ) : ℤ) by push_cast; ring, zpow_natCast]
    exact_mod_cast this
  have hden1 : (2 : ℚ) ^ (ld : ℤ) ≤ (d : ℚ) := by
    have := Nat.log2_self_le hd0
    rw [zpow_natCast]
    exact_mod_cast this
  have hden2 : (d : ℚ) < (2 : ℚ) ^ ((ld : ℤ) + 1) := by
    have := Nat.lt_log2_self (n := d)
    rw [show ((ld : ℤ) + 1) = ((ld + 1 : ℕ) : ℤ) by push_cast; ring, zpow_natCast]
    exact_mod_cast this
  have hupper : q < (2 : ℚ) ^ ((ln : ℤ) - ld + 1) := by
    rw [hq_eq]
    calc (n : ℚ) / d ≤ (n : ℚ) / (2 : ℚ) ^ (ld : ℤ) := by
          gcongr
      _ < (2 : ℚ) ^ ((ln : ℤ) + 1) / (2 : ℚ) ^ (ld : ℤ) := by
          gcongr
      _ = (2 : ℚ) ^ ((ln : ℤ) - ld + 1) := by
          rw [← zpow_sub₀ (two_ne_zero)]
          congr 1
          ring
  have hlower : (2 : ℚ) ^ ((ln : ℤ) - ld - 1) < q := by
    rw [hq_eq]
    calc (2 : ℚ) ^ ((ln : ℤ) - ld - 1) = (2 : ℚ) ^ (ln : ℤ) / (2 : ℚ) ^ ((ld : ℤ) + 1) := by
          rw [← zpow_sub₀ (two_ne_zero)]
          congr 1
          ring
      _ ≤ (n : ℚ) / (2 : ℚ) ^ ((ld : ℤ) + 1) := by
          gcongr
      _ < (n : ℚ) / (d : ℚ) := by
          gcongr
  unfold ilog2q
  rw [← hn, ← hd, ← hln, ← hld]
  by_cases hcase : (2 : ℚ) ^ ((ln : ℤ) - ld) ≤ q
  · rw [if_pos hcase]
    exact ⟨hcase, hupper⟩
  · rw [if_neg hcase]
    constructor
    · exact hlower.le
    · exact lt_of_lt_of_eq (not_le.mp hcase) (by congr 1; ring)

theorem ilog2q_eq (q : ℚ) (e : ℤ) (hq : 0 < q)
    (h1 : (2 : ℚ) ^ e ≤ q) (h2 : q < (2 : ℚ) ^ (e + 1)) : ilog2q q = e := by
  obtain ⟨l1, l2⟩ := ilog2q_spec q hq
  by_contra hne
  rcases lt_or_gt_of_ne hne with hlt | hgt
  · have : (2 : ℚ) ^ (ilog2q q + 1) ≤ (2 : ℚ) ^ e :=
      zpow_le_zpow_right₀ (by norm_num) (by omega)
    linarith
  · have : (2 : ℚ) ^ (e + 1) ≤ (2 : ℚ) ^ ilog2q q :=
      zpow_le_zpow_right₀ (by norm_num) (by omega)
    linarith

theorem fp64_eq_of_bracket (q : ℚ) (e : ℤ) (hq : 0 < q)
    (h1 : (2 : ℚ) ^ e ≤ q) (h2 : q < (2 : ℚ) ^ (e + 1)) :
    fp64 q = (roundNearestEven (q / 2 ^ (e - 52)) : ℚ) * 2 ^ (e - 52) := by
  rw [fp64, if_neg (ne_of_gt hq), if_neg (not_lt.mpr hq.le), fp64pos,
    ilog2q_eq q e hq h1 h2]

theorem roundNearestEven_intCast (k : ℤ) : roundNearestEven (k : ℚ) = k := by
  unfold roundNearestEven
  rw [Int.floor_intCast]
  norm_num

/-- Naturals below `2 ^ 53` are exactly representable doubles. -/
theorem fp64_int_fix (n : ℕ) (h0 : n ≠ 0) (h : n < 2 ^ 53) : fp64 (n : ℚ) = n := by
  have hq : (0 : ℚ) < n := by exact_mod_cast Nat.pos_of_ne_zero h0
  set e : ℤ := (Nat.log2 n : ℤ) with he
  have hb1 : (2 : ℚ) ^ e ≤ n := by
    rw [he, zpow_natCast]
    exact_mod_cast Nat.log2_self_le h0
  have hb2 : (n : ℚ) < (2 : ℚ) ^ (e + 1) := by
    rw [he, show ((Nat.log2 n : ℤ) + 1) = ((Nat.log2 n + 1 : ℕ) : ℤ) by push_cast; ring,
      zpow_natCast]
    exact_mod_cast Nat.lt_log2_self
  have hle : e ≤ 52 := by
    have := (Nat.log2_lt h0).mpr h
    omega
  rw [fp64_eq_of_bracket (n : ℚ) e hq hb1 hb2]
  set k : ℕ := (52 - e).toNat with hk
  have hek : e - 52 = -(k : ℤ) := by omega
  have hint : ((n : ℚ) / 2 ^ (e - 52)) = ((n * 2 ^ k : ℕ) : ℚ) := by
    rw [hek, zpow_neg, div_inv_eq_mul]
    push_cast
    rw [zpow_natCast]
  rw [hint]
  have hrne : roundNearestEven ((n * 2 ^ k : ℕ) : ℚ) = (n * 2 ^ k : ℕ) := by
    have h2 := roundNearestEven_intCast ((n * 2 ^ k : ℕ) : ℤ)
    rw [show (((n * 2 ^ k : ℕ) : ℤ) : ℚ) = ((n * 2 ^ k : ℕ) : ℚ) by push_cast; ring] at h2
    exact h2
  rw [hrne, hek]
  push_cast
  rw [zpow_neg, zpow_natCast]
  field_simp

theorem fp64_natCast_eq (n : ℕ) (h : n < 2 ^ 53) : fp64 (n : ℚ) = n := by
  rcases eq_or_ne n 0 with rfl | h0
  · simp [fp64]
  · exact fp64_int_fix n h0 h

theorem parseIntFP_eq (n : ℕ) (h : n < 2 ^ 53) : parseIntFP n = n := by
  rw [parseIntFP, fp64_natCast_eq n h]
  simp

theorem fp64_pow10 (d : ℕ) (h : (10 : ℕ) ^ d < 2 ^ 53) :
    fp64 ((10 : ℚ) ^ d) = (10 : ℚ) ^ d := by
  have h10 := fp64_natCast_eq ((10 : ℕ) ^ d) h
  push_cast at h10
  exact h10

/-- The double nearest to `2 ^ 53 + 1`: the tie between `2 ^ 53` and
`2 ^ 53 + 2` is broken to the even significand, losing the `+ 1`. -/
theorem fp64_2pow53add1 : fp64 ((2 ^ 53 + 1 : ℕ) : ℚ) = ((2 ^ 53 : ℕ) : ℚ) := by
  rw [show (((2 ^ 53 + 1 : ℕ) : ℚ)) = (9007199254740993 : ℚ) by norm_num]
  rw [fp64_eq_of_bracket _ 53 (by norm_num) (by norm_num) (by norm_num)]
  norm_num [roundNearestEven]

theorem parseIntFP_2pow53add1 : parseIntFP (2 ^ 53 + 1) = 2 ^ 53 := by
  rw [parseIntFP, fp64_2pow53add1]
  simp

/-- The double nearest to the decimal 4.35. -/
theorem fp64_435 : fp64 (87 / 20) = 2448832297382707 / 562949953421312 := by
  rw [fp64_eq_of_bracket (87 / 20) 2 (by norm_num) (by norm_num) (by norm_num)]
  norm_num [roundNearestEven]

/-- The double product `fp64(4.35) * 100` rounds to just below 435. -/
theorem fp64_435_mul_100 :
    fp64 (61220807434567675 / 140737488355328) = 7652600929320959 / 17592186044416 := by
  rw [fp64_eq_of_bracket _ 8 (by norm_num) (by norm_num) (by norm_num)]
  norm_num [roundNearestEven]

theorem formatTokenAmount_435_eq : formatTokenAmount (87 / 20) 2 = 434 := by
  rw [formatTokenAmount, fp64_435, fp64_pow10 2 (by norm_num)]
  norm_num [fp64_435_mul_100]

/-- The double nearest to the decimal 0.29 (slightly below it). -/
theorem fp64_029 : fp64 (29 / 100) = 5224175567749775 / 18014398509481984 := by
  rw [fp64_eq_of_bracket (29 / 100) (-2) (by norm_num) (by norm_num) (by norm_num)]
  norm_num [roundNearestEven]

/-- The double product `fp64(0.29) * 10^6` rounds up to exactly 290000,
one above the floor of the exact product. -/
theorem fp64_029_mul_1e6 :
    fp64 (5224175567749775 / 18014398509481984 * 10 ^ 6) = 290000 := by
  rw [show (5224175567749775 / 18014398509481984 * 10 ^ 6 : ℚ) =
      326510972984360937500 / 1125899906842624 by norm_num]
  rw [fp64_eq_of_bracket _ 18 (by norm_num) (by norm_num) (by norm_num)]
  norm_num [roundNearestEven]

theorem formatTokenAmount_029_eq : formatTokenAmount (29 / 100) 6 = 290000 := by
  rw [formatTokenAmount, fp64_029, fp64_pow10 6 (by norm_num)]
  have h : fp64 (5224175567749775 / 18014398509481984 * (10 : ℚ) ^ 6) = 290000 :=
    fp64_029_mul_1e6
  rw [h]
  norm_num

/-- 100.5 is a dyadic rational, hence an exact double. -/
theorem fp64_1005 : fp64 (201 / 2) = 201 / 2 := by
  rw [fp64_eq_of_bracket (201 / 2) 6 (by norm_num) (by norm_num) (by norm_num)]
  norm_num [roundNearestEven]

theorem formatTokenAmount_10050_eq : formatTokenAmount (201 / 2) 6 = 100500000 := by
  rw [formatTokenAmount, fp64_1005, fp64_pow10 6 (by norm_num)]
  have h : fp64 ((201 / 2 : ℚ) * (10 : ℚ) ^ 6) = 100500000 := by
    rw [show ((201 / 2 : ℚ) * (10 : ℚ) ^ 6) = ((100500000 : ℕ) : ℚ) by norm_num]
    rw [fp64_natCast_eq 100500000 (by norm_num)]
    norm_num
  rw [h]
  norm_num

/-! ### Claim theorems -/

/-- Core assembly round-trip: decoding the selector, the padded address
word and the padded hex word of `n` recovers the address and `n`. -/
theorem transferCallData_roundTrip (s : List Char) (n : ℕ)
    (hs : s.length = 40) (hn : n < 16 ^ 64) :
    decodeTransferFunction
        (['0', 'x'] ++ transferSelector ++ padLeft 64 '0' s ++ padLeft 64 '0' (natToHexJS n)) =
      some ('0' :: 'x' :: s, n) := by
  have hnlen : (natToHexJS n).length ≤ 64 := by
    by_cases h0 : n = 0
    · subst h0; simp [natToHexJS]
    · rw [natToHexJS, if_neg h0]
      exact natToHex_length_le n 64 hn
  have hAlen : (padLeft 64 '0' s).length = 64 := by
    simp [padLeft, hs]
  have hBlen : (padLeft 64 '0' (natToHexJS n)).length = 64 := by
    simp [padLeft]
    omega
  have henc : (['0', 'x'] ++ transferSelector ++ padLeft 64 '0' s
        ++ padLeft 64 '0' (natToHexJS n)) =
      '0' :: 'x' :: (transferSelector ++ (padLeft 64 '0' s ++ padLeft 64 '0' (natToHexJS n))) := by
    simp [List.append_assoc]
  rw [henc, decodeTransferFunction]
  have hsel : transferSelector.length = 8 := rfl
  set A := padLeft 64 '0' s with hA
  set B := padLeft 64 '0' (natToHexJS n) with hB
  have htake : (transferSelector ++ (A ++ B)).take 8 = transferSelector :=
    List.take_left' hsel
  have hlen : (transferSelector ++ (A ++ B)).length = 136 := by
    simp [List.length_append, hsel, hAlen, hBlen]
  rw [if_pos ⟨htake, hlen⟩]
  have hdrop8 : (transferSelector ++ (A ++ B)).drop 8 = A ++ B :=
    List.drop_left' hsel
  have htake64 : (A ++ B).take 64 = A :=
    List.take_left' hAlen
  have hdrop24 : A.drop 24 = s := by
    rw [hA, padLeft, hs]
    show (List.replicate 24 '0' ++ s).drop 24 = s
    exact List.drop_left' (by simp)
  have hdrop72 : (transferSelector ++ (A ++ B)).drop 72 = B := by
    rw [← List.append_assoc]
    exact List.drop_left' (by simp [hsel, hAlen])
  have hparse : parseHex B = n := by
    rw [hB, padLeft, parseHex_replicate_zero, parseHex_natToHexJS]
  rw [hdrop8, htake64, hdrop24, hdrop72, hparse]

/-- C4 counterexample: at amount `2 ^ 53 + 1` the encoder goes through
`parseInt`, whose double representation collapses the amount to
`2 ^ 53`, so decoding recovers `2 ^ 53`, not the input — the round-trip
claimed for every integer amount fails above the double-precision
integer limit. -/
theorem encodeTransfer_precision_loss :
    decodeTransferFunction
        (encodeTransferFunction
          ('0' :: 'x' :: "3BEa30431539669E94B2E79149654586F7746A16".data) (2 ^ 53 + 1)) =
      some ('0' :: 'x' :: "3BEa30431539669E94B2E79149654586F7746A16".data, 2 ^ 53) ∧
    (2 ^ 53 : ℕ) ≠ 2 ^ 53 + 1 := by
  constructor
  · unfold encodeTransferFunction
    rw [show replaceFirst0x ('0' :: 'x' :: "3BEa30431539669E94B2E79149654586F7746A16".data) =
        "3BEa30431539669E94B2E79149654586F7746A16".data from rfl,
      parseIntFP_2pow53add1]
    exact transferCallData_roundTrip _ _ (by decide) (by norm_num)
  · omega

/-- C4 (amended): for every valid 20-byte recipient address and every
integer base-unit amount below `2 ^ 53` — the exact-integer limit of the
double `parseInt` produces — decoding the ABI call data produced by
`encodeTransferFunction` recovers exactly the input address and the
input amount. -/
theorem encodeTransfer_roundTrip (s : List Char) (amount : ℕ)
    (hs : s.length = 40) (ha : amount < 2 ^ 53) :
    decodeTransferFunction (encodeTransferFunction ('0' :: 'x' :: s) amount) =
      some ('0' :: 'x' :: s, amount) := by
  unfold encodeTransferFunction
  rw [show replaceFirst0x ('0' :: 'x' :: s) = s from rfl, parseIntFP_eq amount ha]
  exact transferCallData_roundTrip s amount hs (lt_trans ha (by norm_num))

/-- Witness for C4 at the repository's sample recipient address and the
base-unit amount 100500000. -/
theorem encodeTransfer_roundTrip_witness :
    decodeTransferFunction
        (encodeTransferFunction ('0' :: 'x' :: "3BEa30431539669E94B2E79149654586F7746A16".data)
          100500000) =
      some ('0' :: 'x' :: "3BEa30431539669E94B2E79149654586F7746A16".data, 100500000) :=
  encodeTransfer_roundTrip "3BEa30431539669E94B2E79149654586F7746A16".data 100500000
    (by decide) (by norm_num)

/-! ### Helper evaluations of the parseFloat model -/

theorem parseFloatQ_10050 : parseFloatQ "100.50" = some (201 / 2) := by
  have h1 : "100.50".data = ['1', '0', '0', '.', '5', '0'] := by decide
  unfold parseFloatQ
  rw [h1]
  simp +decide [digitsToNat]
  norm_num

theorem parseFloatQ_neg5 : parseFloatQ "-5" = some (-5) := by
  have h1 : "-5".data = ['-', '5'] := by decide
  unfold parseFloatQ
  rw [h1]
  simp +decide [digitsToNat]

/-- C1 counterexample: at invoice id 123, amount "100.50" and the sample
recipient, the builder does not emit the claimed URI: the code appends a
`&gas=100000` parameter after the amount. -/
theorem generatePYUSD_not_claimed_uri :
    generatePYUSDPaymentQR (fun _ => true) 123 "100.50"
        "0x3BEa30431539669E94B2E79149654586F7746A16" ≠
      Except.ok "ethereum:0xCaC524BcA292aaade2DF8A05cC58F0a65B1B3bB9@11155111/transfer?address=0x3BEa30431539669E94B2E79149654586F7746A16&uint256=100500000" := by
  have hf : Int.floor ((201 : ℚ) / 2 * 1000000) = 100500000 := by norm_num
  have heval : generatePYUSDPaymentQR (fun _ => true) 123 "100.50"
      "0x3BEa30431539669E94B2E79149654586F7746A16" =
      Except.ok "ethereum:0xCaC524BcA292aaade2DF8A05cC58F0a65B1B3bB9@11155111/transfer?address=0x3BEa30431539669E94B2E79149654586F7746A16&uint256=100500000&gas=100000" := by
    unfold generatePYUSDPaymentQR
    rw [parseFloatQ_10050]
    simp +decide [hf, sepoliaNetwork]
    rw [if_neg (by norm_num : ¬ ((201 : ℚ) / 2 ≤ 0))]
    rfl
  rw [heval]
  intro hc
  exact absurd (Except.ok.inj hc) (by decide)

/-- C1 (amended): for invoice id 123, amount "100.50", the sample
recipient, chain id 11155111 and the Sepolia PYUSD token address, the
token-transfer deep-link builder emits exactly
`ethereum:<tokenAddress>@11155111/transfer?address=<recipient>&uint256=100500000&gas=100000`:
the claimed URI with a fixed `gas=100000` parameter appended. -/
theorem generatePYUSD_sample_uri (isAddr : String → Bool)
    (h : isAddr "0x3BEa30431539669E94B2E79149654586F7746A16" = true) :
    generatePYUSDPaymentQR isAddr 123 "100.50"
        "0x3BEa30431539669E94B2E79149654586F7746A16" =
      Except.ok "ethereum:0xCaC524BcA292aaade2DF8A05cC58F0a65B1B3bB9@11155111/transfer?address=0x3BEa30431539669E94B2E79149654586F7746A16&uint256=100500000&gas=100000" := by
  have hf : Int.floor ((201 : ℚ) / 2 * 1000000) = 100500000 := by norm_num
  unfold generatePYUSDPaymentQR
  rw [parseFloatQ_10050]
  simp +decide [hf, sepoliaNetwork, h]
  rw [if_neg (by norm_num : ¬ ((201 : ℚ) / 2 ≤ 0))]
  rfl

/-- Witness for C1's amended theorem, with a validator accepting the
sample recipient address. -/
theorem generatePYUSD_sample_uri_witness :
    generatePYUSDPaymentQR (fun _ => true) 123 "100.50"
        "0x3BEa30431539669E94B2E79149654586F7746A16" =
      Except.ok "ethereum:0xCaC524BcA292aaade2DF8A05cC58F0a65B1B3bB9@11155111/transfer?address=0x3BEa30431539669E94B2E79149654586F7746A16&uint256=100500000&gas=100000" :=
  generatePYUSD_sample_uri (fun _ => true) rfl

/-- C2 counterexample: at the decimal amount 4.35 (= 87/20) with 2
decimals, the encoder — which floors the binary64-rounded double
product, as the source does — returns 434, not the exact
`floor(4.35 * 10 ^ 2) = 435`: the double product `4.35 * 100` is
434.99999999999994. -/
theorem formatTokenAmount_not_exact_floor :
    formatTokenAmount (87 / 20) 2 ≠ Int.floor ((87 / 20 : ℚ) * 10 ^ 2) := by
  rw [formatTokenAmount_435_eq,
    show Int.floor ((87 / 20 : ℚ) * 10 ^ 2) = 435 by norm_num]
  decide

/-- C2 (amended): `formatTokenAmount` returns the floor of the
binary64-rounded product `fp64 (fp64 amount * fp64 (10 ^ d))`, not the
exact `floor(amount * 10 ^ d)`: on the scenario input 100.50 with 6
decimals the double arithmetic is exact and the base units are
100500000, but at 4.35 with 2 decimals the result 434 is one below the
exact floor 435, and at 0.29 with 6 decimals the result 290000 is one
above the floor of its double argument's exact product — the rounded
product can cross an integer boundary in either direction, so the
conversion is truncation of the double product, not of the exact
one. -/
theorem formatTokenAmount_fp_behavior :
    formatTokenAmount (201 / 2) 6 = 100500000 ∧
    (formatTokenAmount (87 / 20) 2 = 434 ∧ Int.floor ((87 / 20 : ℚ) * 10 ^ 2) = 435) ∧
    (formatTokenAmount (29 / 100) 6 = 290000 ∧
      Int.floor (fp64 (29 / 100) * (10 : ℚ) ^ 6) = 289999) := by
  refine ⟨formatTokenAmount_10050_eq, ⟨formatTokenAmount_435_eq, by norm_num⟩,
    formatTokenAmount_029_eq, ?_⟩
  rw [fp64_029]
  norm_num

/-- C3 counterexample: with the token-transfer and mobile builders
failing, the structured-JSON builder succeeding and the generic builder
failing, the UI handler returns the structured-JSON payload, whereas the
claimed policy skips the JSON form and surfaces the generic builder's
error. -/
theorem handleGenerateQR_ne_statedPolicy :
    handleGenerateQR (Except.error "mobile failed") (Except.error "eip failed")
        (Except.ok "structured payload") ≠
      statedFallbackPolicy (Except.error "eip failed") (Except.error "mobile failed")
        (Except.error "generic failed") :=
  fun h => Except.noConfusion h

/-- C3 (amended): the UI multi-format fallback attempts the
wallet-specific mobile deep-link builder first, then the token-transfer
deep-link builder, then the structured JSON form; the generic URI
fallback is never attempted; the first success wins; and when all
attempted builders fail, the first builder's error is surfaced. -/
theorem handleGenerateQR_eq_amendedPolicy (m e s : Except String String) :
    handleGenerateQR m e s = amendedFallbackPolicy m e s := by
  cases m <;> cases e <;> cases s <;> rfl

/-- C7: handling an `accountsChanged` notification with an empty account
list from any connected wallet state yields exactly the disconnected
state: not connected, address and chain id cleared, balance "0". -/
theorem accountsChanged_empty_disconnects (s : WalletState) (h : s.isConnected = true) :
    handleAccountsChanged s [] = disconnectedWalletState ∧
    (handleAccountsChanged s []).isConnected = false ∧
    (handleAccountsChanged s []).address = none ∧
    (handleAccountsChanged s []).chainId = none ∧
    (handleAccountsChanged s []).balance = "0" :=
  ⟨rfl, rfl, rfl, rfl, rfl⟩

/-- Witness for C7 from a concrete connected state. -/
theorem accountsChanged_empty_disconnects_witness :
    handleAccountsChanged
        { isConnected := true, address := some "0xAbCd", balance := "42.5"
        , chainId := some 11155111, network := some sepoliaNetwork
        , isLoading := false, error := none } [] = disconnectedWalletState :=
  (accountsChanged_empty_disconnects
    { isConnected := true, address := some "0xAbCd", balance := "42.5"
    , chainId := some 11155111, network := some sepoliaNetwork
    , isLoading := false, error := none } rfl).1

/-- C8 counterexample: `createMetaMaskDeepLink` emits a URI built from a
malformed recipient address and a negative amount instead of returning a
typed error — not every payment-URI builder validates its inputs. -/
theorem createMetaMaskDeepLink_no_validation :
    createMetaMaskDeepLink 1 "-5" "not-an-address" =
      "ethereum:0xCaC524BcA292aaade2DF8A05cC58F0a65B1B3bB9@11155111/transfer?address=not-an-address&uint256=-5" :=
  rfl

/-- C8 (amended): the token-transfer deep-link builder
(`generatePYUSDPaymentQR`) validates before constructing any string: a
recipient address failing validation yields the typed error naming the
address field, and — for validated addresses — an unparseable or
non-positive amount yields the typed error naming the amount field, with
no URI emitted in either case.  `createMetaMaskDeepLink`, by contrast,
performs no validation. -/
theorem generatePYUSD_validates (isAddr : String → Bool) (invoiceId : ℕ)
    (amount contractAddress : String) :
    (contractAddress = "" ∨ isAddr contractAddress = false →
      generatePYUSDPaymentQR isAddr invoiceId amount contractAddress =
        Except.error "Invalid contract address provided") ∧
    (contractAddress ≠ "" → isAddr contractAddress = true →
      parseFloatQ amount = none →
      generatePYUSDPaymentQR isAddr invoiceId amount contractAddress =
        Except.error "Invalid amount provided") ∧
    (∀ a : ℚ, contractAddress ≠ "" → isAddr contractAddress = true →
      parseFloatQ amount = some a → a ≤ 0 →
      generatePYUSDPaymentQR isAddr invoiceId amount contractAddress =
        Except.error "Invalid amount provided") := by
  refine ⟨?_, ?_, ?_⟩
  · intro h
    rcases h with h | h
    · simp [generatePYUSDPaymentQR, sepoliaNetwork, h]
    · simp [generatePYUSDPaymentQR, sepoliaNetwork, h]
  · intro h1 h2 h3
    simp [generatePYUSDPaymentQR, sepoliaNetwork, h1, h2, h3]
  · intro a h1 h2 h3 h4
    simp [generatePYUSDPaymentQR, sepoliaNetwork, h1, h2, h3, if_pos h4]

/-- Witness for C8's amended theorem: a rejected validator and a
negative amount each produce the corresponding typed error. -/
theorem generatePYUSD_validates_witness :
    generatePYUSDPaymentQR (fun _ => false) 1 "5" "0xabc" =
      Except.error "Invalid contract address provided" ∧
    generatePYUSDPaymentQR (fun _ => true) 1 "-5" "0xabc" =
      Except.error "Invalid amount provided" :=
  ⟨(generatePYUSD_validates (fun _ => false) 1 "5" "0xabc").1 (Or.inr rfl),
   (generatePYUSD_validates (fun _ => true) 1 "-5" "0xabc").2.2 (-5)
     (by decide) rfl parseFloatQ_neg5 (by norm_num)⟩

/-- C10: the URI produced by the token-transfer deep-link builder is
independent of the invoice id argument: two calls differing only in the
invoice id return identical results. -/
theorem generatePYUSD_invoiceId_independent (isAddr : String → Bool)
    (id1 id2 : ℕ) (amount contractAddress : String) :
    generatePYUSDPaymentQR isAddr id1 amount contractAddress =
      generatePYUSDPaymentQR isAddr id2 amount contractAddress :=
  rfl

/-- C5: `payInvoice` rejects locally — returning an error with an empty
trace of state-changing contract calls — whenever the invoice status is
not Unpaid, or the caller equals the creator (case-insensitively), or
the balance is strictly below the amount; when the rejection is due to
the balance the error is the insufficient-balance error. -/
theorem payInvoice_rejects_locally (env : PayEnv) (invoiceId : ℕ) (inv : Invoice)
    (hinit : env.initialized = true) (hinv : env.invoice = some inv)
    (h : inv.status ≠ InvoiceStatus.UNPAID ∨
      lowerStr inv.creator = lowerStr env.userAddress ∨ env.balance < inv.amount) :
    (∃ msg, (payInvoiceRun env invoiceId).1 = Except.error msg) ∧
    (payInvoiceRun env invoiceId).2 = [] ∧
    (inv.status = InvoiceStatus.UNPAID →
      lowerStr inv.creator ≠ lowerStr env.userAddress →
      env.balance < inv.amount →
      (payInvoiceRun env invoiceId).1 = Except.error "Insufficient PYUSD balance") := by
  obtain ⟨init, invo, ua, bal, alw, ar, pr⟩ := env
  dsimp only at hinit hinv h ⊢
  subst hinit
  subst hinv
  unfold payInvoiceRun
  dsimp only
  by_cases h1 : inv.status = InvoiceStatus.UNPAID
  · rw [if_neg (show ¬ inv.status ≠ InvoiceStatus.UNPAID from fun hne => hne h1)]
    by_cases h2 : lowerStr inv.creator = lowerStr ua
    · rw [if_pos h2]
      exact ⟨⟨_, rfl⟩, rfl, fun _ hne _ => absurd h2 hne⟩
    · rw [if_neg h2]
      have h3 : bal < inv.amount := by tauto
      rw [if_pos h3]
      exact ⟨⟨_, rfl⟩, rfl, fun _ _ _ => rfl⟩
  · rw [if_pos h1]
    exact ⟨⟨_, rfl⟩, rfl, fun hs => absurd hs h1⟩

/-- Witness for C5: an unpaid invoice whose amount exceeds the caller's
balance is rejected with the insufficient-balance error and no
state-changing call. -/
theorem payInvoice_rejects_locally_witness :
    (∃ msg, (payInvoiceRun
        { initialized := true
        , invoice := some
            { id := 7, creator := "0xCreator", payer := "", amount := 1000
            , status := InvoiceStatus.UNPAID, ipfsHash := "Qm", createdAt := 0
            , paidAt := 0, invoiceExists := true }
        , userAddress := "0xPayer", balance := 999, allowance := 0
        , approveResult := Except.ok (), payResult := Except.ok "0xhash" } 7).1 =
      Except.error msg) ∧
    (payInvoiceRun
        { initialized := true
        , invoice := some
            { id := 7, creator := "0xCreator", payer := "", amount := 1000
            , status := InvoiceStatus.UNPAID, ipfsHash := "Qm", createdAt := 0
            , paidAt := 0, invoiceExists := true }
        , userAddress := "0xPayer", balance := 999, allowance := 0
        , approveResult := Except.ok (), payResult := Except.ok "0xhash" } 7).2 = [] ∧
    (InvoiceStatus.UNPAID = InvoiceStatus.UNPAID →
      lowerStr "0xCreator" ≠ lowerStr "0xPayer" →
      (999 : ℕ) < 1000 →
      (payInvoiceRun
        { initialized := true
        , invoice := some
            { id := 7, creator := "0xCreator", payer := "", amount := 1000
            , status := InvoiceStatus.UNPAID, ipfsHash := "Qm", createdAt := 0
            , paidAt := 0, invoiceExists := true }
        , userAddress := "0xPayer", balance := 999, allowance := 0
        , approveResult := Except.ok (), payResult := Except.ok "0xhash" } 7).1 =
      Except.error "Insufficient PYUSD balance") :=
  payInvoice_rejects_locally
    { initialized := true
    , invoice := some
        { id := 7, creator := "0xCreator", payer := "", amount := 1000
        , status := InvoiceStatus.UNPAID, ipfsHash := "Qm", createdAt := 0
        , paidAt := 0, invoiceExists := true }
    , userAddress := "0xPayer", balance := 999, allowance := 0
    , approveResult := Except.ok (), payResult := Except.ok "0xhash" } 7
    { id := 7, creator := "0xCreator", payer := "", amount := 1000
    , status := InvoiceStatus.UNPAID, ipfsHash := "Qm", createdAt := 0
    , paidAt := 0, invoiceExists := true }
    rfl rfl (Or.inr (Or.inr (by norm_num)))

/-- C6: on the payable path, an approval transaction appears in the
trace if and only if the current allowance is strictly below the invoice
amount (exact comparison), and whenever the payment submission appears
in the trace while an approval was required, the approval's confirmation
strictly precedes it. -/
theorem payInvoice_approval_order (env : PayEnv) (invoiceId : ℕ) (inv : Invoice)
    (hinit : env.initialized = true) (hinv : env.invoice = some inv)
    (hstatus : inv.status = InvoiceStatus.UNPAID)
    (hself : lowerStr inv.creator ≠ lowerStr env.userAddress)
    (hbal : inv.amount ≤ env.balance) :
    (PayEvent.approveSubmit inv.amount ∈ (payInvoiceRun env invoiceId).2 ↔
      env.allowance < inv.amount) ∧
    (∀ i : ℕ,
      (payInvoiceRun env invoiceId).2.get? i = some (PayEvent.paySubmit invoiceId) →
      env.allowance < inv.amount →
      ∃ j : ℕ, j < i ∧
        (payInvoiceRun env invoiceId).2.get? j = some PayEvent.approveConfirmed) := by
  obtain ⟨init, invo, ua, bal, alw, ar, pr⟩ := env
  dsimp only at hinit hinv hself hbal ⊢
  subst hinit
  subst hinv
  unfold payInvoiceRun
  dsimp only
  rw [if_neg (show ¬ inv.status ≠ InvoiceStatus.UNPAID from fun hne => hne hstatus),
    if_neg hself, if_neg (not_lt.mpr hbal)]
  by_cases hallow : alw < inv.amount
  · rw [if_pos hallow]
    rcases ar with e | u
    · refine ⟨by simp [hallow], ?_⟩
      intro i hi
      rcases i with _ | i <;> simp at hi
    · rcases pr with e | hsh
      · refine ⟨by simp [hallow], ?_⟩
        intro i hi _
        rcases i with _ | _ | _ | i <;> simp at hi
        exact ⟨1, by omega, rfl⟩
      · refine ⟨by simp [hallow], ?_⟩
        intro i hi _
        rcases i with _ | _ | _ | _ | i <;> simp at hi
        exact ⟨1, by omega, rfl⟩
  · rw [if_neg hallow]
    rcases pr with e | hsh
    · refine ⟨by simp [hallow], ?_⟩
      intro _ _ hc
      exact absurd hc hallow
    · refine ⟨by simp [hallow], ?_⟩
      intro _ _ hc
      exact absurd hc hallow

/-- Witness for C6: with allowance 0 and amount 1000 the approval is
issued and its confirmation precedes the payment submission. -/
theorem payInvoice_approval_order_witness :
    (PayEvent.approveSubmit 1000 ∈ (payInvoiceRun
        { initialized := true
        , invoice := some
            { id := 7, creator := "0xCreator", payer := "", amount := 1000
            , status := InvoiceStatus.UNPAID, ipfsHash := "Qm", createdAt := 0
            , paidAt := 0, invoiceExists := true }
        , userAddress := "0xPayer", balance := 5000, allowance := 0
        , approveResult := Except.ok (), payResult := Except.ok "0xhash" } 7).2 ↔
      (0 : ℕ) < 1000) ∧
    (∀ i : ℕ,
      (payInvoiceRun
        { initialized := true
        , invoice := some
            { id := 7, creator := "0xCreator", payer := "", amount := 1000
            , status := InvoiceStatus.UNPAID, ipfsHash := "Qm", createdAt := 0
            , paidAt := 0, invoiceExists := true }
        , userAddress := "0xPayer", balance := 5000, allowance := 0
        , approveResult := Except.ok (), payResult := Except.ok "0xhash" } 7).2.get? i =
        some (PayEvent.paySubmit 7) →
      (0 : ℕ) < 1000 →
      ∃ j : ℕ, j < i ∧
        (payInvoiceRun
        { initialized := true
        , invoice := some
            { id := 7, creator := "0xCreator", payer := "", amount := 1000
            , status := InvoiceStatus.UNPAID, ipfsHash := "Qm", createdAt := 0
            , paidAt := 0, invoiceExists := true }
        , userAddress := "0xPayer", balance := 5000, allowance := 0
        , approveResult := Except.ok (), payResult := Except.ok "0xhash" } 7).2.get? j =
        some PayEvent.approveConfirmed) :=
  payInvoice_approval_order
    { initialized := true
    , invoice := some
        { id := 7, creator := "0xCreator", payer := "", amount := 1000
        , status := InvoiceStatus.UNPAID, ipfsHash := "Qm", createdAt := 0
        , paidAt := 0, invoiceExists := true }
    , userAddress := "0xPayer", balance := 5000, allowance := 0
    , approveResult := Except.ok (), payResult := Except.ok "0xhash" } 7
    { id := 7, creator := "0xCreator", payer := "", amount := 1000
    , status := InvoiceStatus.UNPAID, ipfsHash := "Qm", createdAt := 0
    , paidAt := 0, invoiceExists := true }
    rfl rfl rfl (by decide) (by norm_num)

/-- C9: `createInvoice` uploads the draft to the metadata store first
(the upload heads every trace) and, whenever the upload fails, returns
that error and never issues the contract call. -/
theorem createInvoice_upload_first (env : CreateEnv) (amount : ℚ)
    (hinit : env.initialized = true) :
    (createInvoiceRun env amount).2.head? = some CreateEvent.uploadIPFS ∧
    ∀ e, env.ipfsResult = Except.error e →
      (createInvoiceRun env amount).1 = Except.error e ∧
      ∀ a h, CreateEvent.contractCreateInvoice a h ∉ (createInvoiceRun env amount).2 := by
  obtain ⟨init, ipfs, tx⟩ := env
  dsimp only at hinit ⊢
  subst hinit
  unfold createInvoiceRun
  dsimp only
  rcases ipfs with e | hsh
  · refine ⟨rfl, ?_⟩
    intro e' he'
    obtain rfl := Except.error.inj he'
    exact ⟨rfl, by simp⟩
  · refine ⟨?_, ?_⟩
    · rcases tx with e | r <;> rfl
    · intro e' he'
      exact absurd he' (fun hc => Except.noConfusion hc)

/-- Witness for C9: a failing upload yields its error and a trace
containing only the upload, no contract call. -/
theorem createInvoice_upload_first_witness :
    (createInvoiceRun
        { initialized := true, ipfsResult := Except.error "IPFS down"
        , txResult := Except.ok (1, "0xhash") } (201 / 2)).2.head? =
      some CreateEvent.uploadIPFS ∧
    ∀ e, (Except.error "IPFS down" : Except String String) = Except.error e →
      (createInvoiceRun
        { initialized := true, ipfsResult := Except.error "IPFS down"
        , txResult := Except.ok (1, "0xhash") } (201 / 2)).1 = Except.error e ∧
      ∀ a h, CreateEvent.contractCreateInvoice a h ∉ (createInvoiceRun
        { initialized := true, ipfsResult := Except.error "IPFS down"
        , txResult := Except.ok (1, "0xhash") } (201 / 2)).2 :=
  createInvoice_upload_first
    { initialized := true, ipfsResult := Except.error "IPFS down"
    , txResult := Except.ok (1, "0xhash") } (201 / 2) rfl
